import Mathlib

/-!
A shallow embedding of the `gapi` Grafana API client (files `annotation.go`
and `orgs.go`) and proofs about its request/response behaviour.

Modelling conventions:
* Go `int64` values are Lean `Int` (no arithmetic overflows occur anywhere in
  the embedded code: the source only stores and compares ids).
* JSON documents are the inductive `JVal`; a response body is
  `Except String (Option JVal)`: `.error e` is an `ioutil.ReadAll` failure,
  `.ok none` stands for bytes that are not well-formed JSON, and
  `.ok (some j)` for bytes parsing to the document `j`.
* A Go slice is `Option (List α)`: `none` is the nil slice, `some l` a
  non-nil slice with elements `l`.
* A Go `(value, error)` return is the pair `α × Option String`; `none` is the
  nil error, `some msg` an error with message `msg`.
* The HTTP layer (`Client`, `newRequest`, `Do`, defined in files of the
  repository that are not part of this development's sources) is modelled from
  the spec: `newRequest` builds a `Request` from method, relative path, query
  parameters and payload and attaches the configured credential; `Do` sends it
  through the transport, modelled as an environment `Env` mapping each request
  to a transport failure or an `HttpResponse`.
* Effects are threaded through an explicit `OpState`: the (immutable, per the
  spec) client configuration, the list of requests handed to the transport so
  far, and whether a response body has been read.  Each operation is the Go
  function transliterated over that state.
* `json.Unmarshal` is modelled per target shape by a total decoder from
  `JVal`; decoding is all-or-nothing, so the partially-filled Go value that
  accompanies a mid-document unmarshal error is modelled as the operation's
  initialised value.
-/

namespace Gapi

/-- A JSON document. -/
inductive JVal where
  | jnull : JVal
  | jbool (b : Bool) : JVal
  | jnum (n : Int) : JVal
  | jstr (s : String) : JVal
  | jarr (elems : List JVal) : JVal
  | jobj (fields : List (String × JVal)) : JVal

/-- Field lookup in a JSON object; like Go's `encoding/json`, the last
occurrence of a duplicated key wins. -/
def jLookup (fields : List (String × JVal)) (k : String) : Option JVal :=
  (fields.reverse.find? (fun p => p.fst == k)).map (fun p => p.snd)

/-- Go's error for a response body that is not well-formed JSON. -/
def errNotJSON : String := "invalid character looking for beginning of value"

/-- Decoding a struct field tagged `json:"k"` of type `int64`: absent or
`null` leaves the zero value, a number is taken, anything else is an
unmarshal type error. -/
def jIntField (fields : List (String × JVal)) (k : String) : Except String Int :=
  match jLookup fields k with
  | none => .ok 0
  | some .jnull => .ok 0
  | some (.jnum n) => .ok n
  | some _ => .error ("json: cannot unmarshal value into field " ++ k ++ " of type int64")

/-- Decoding a `string` struct field (see `jIntField`). -/
def jStrField (fields : List (String × JVal)) (k : String) : Except String String :=
  match jLookup fields k with
  | none => .ok ""
  | some .jnull => .ok ""
  | some (.jstr s) => .ok s
  | some _ => .error ("json: cannot unmarshal value into field " ++ k ++ " of type string")

/-- Decoding a `bool` struct field (see `jIntField`). -/
def jBoolField (fields : List (String × JVal)) (k : String) : Except String Bool :=
  match jLookup fields k with
  | none => .ok false
  | some .jnull => .ok false
  | some (.jbool b) => .ok b
  | some _ => .error ("json: cannot unmarshal value into field " ++ k ++ " of type bool")

/-- Decoding the elements of a JSON array into strings. -/
def decodeStrElems : List JVal → Except String (List String)
  | [] => .ok []
  | .jstr s :: rest => do
      let tl ← decodeStrElems rest
      .ok (s :: tl)
  | _ :: _ => .error "json: cannot unmarshal value into element of type string"

/-- Decoding a `[]string` struct field: absent or `null` leaves the nil
slice, an array of strings is taken elementwise. -/
def jStrListField (fields : List (String × JVal)) (k : String) : Except String (List String) :=
  match jLookup fields k with
  | none => .ok []
  | some .jnull => .ok []
  | some (.jarr es) => decodeStrElems es
  | some _ => .error ("json: cannot unmarshal value into field " ++ k ++ " of type []string")

/-- Go: `type Annotation struct { ... }` (annotation.go).  Field defaults are
the Go zero values, so `{}` is Go's `Annotation{}`.  The Go field `Type` is
written `type_` here (`Type` is a Lean keyword). -/
structure Annotation where
  ID : Int := 0
  AlertID : Int := 0
  DashboardID : Int := 0
  PanelID : Int := 0
  UserID : Int := 0
  UserName : String := ""
  NewState : String := ""
  PrevState : String := ""
  Time : Int := 0
  TimeEnd : Int := 0
  Text : String := ""
  Metric : String := ""
  RegionID : Int := 0
  type_ : String := ""
  Tags : List String := []
  IsRegion : Bool := false
  deriving Repr, DecidableEq

/-- Go: `type GraphiteAnnotation struct { ... }` (annotation.go). -/
structure GraphiteAnnotation where
  What : String := ""
  When : Int := 0
  Data : String := ""
  Tags : List String := []
  deriving Repr, DecidableEq

/-- Go: `type Org struct { Id int64; Name string }` (orgs.go). -/
structure Org where
  Id : Int := 0
  Name : String := ""
  deriving Repr, DecidableEq

/-- Modelled from the spec: `User` is declared in a file of the repository
that is not among this development's sources; per the spec it is a plain
data-transfer record with a 1:1 field mapping to JSON keys. -/
structure User where
  Id : Int := 0
  Login : String := ""
  Email : String := ""
  deriving Repr, DecidableEq

/-- Go: `type OrgUser struct { User; Role string; OrgID int64 }` (orgs.go).
The embedded `User` is the field `user`. -/
structure OrgUser where
  user : User := {}
  Role : String := ""
  OrgID : Int := 0
  deriving Repr, DecidableEq

/-- Modelled from the spec: `Dashboard` is declared in a file of the
repository that is not among this development's sources; a plain
data-transfer record. -/
structure Dashboard where
  Slug : String := ""
  deriving Repr, DecidableEq

/-- Modelled from the spec: `DataSource` is declared in a file of the
repository that is not among this development's sources; a plain
data-transfer record. -/
structure DataSource where
  Id : Int := 0
  Name : String := ""
  deriving Repr, DecidableEq

/-- A Go slice: `none` is the nil slice, `some l` a non-nil slice. -/
abbrev GoSlice (α : Type) : Type := Option (List α)

/-- The elements of a Go slice (ranging over the nil slice sees nothing). -/
def sliceList {α : Type} : GoSlice α → List α
  | none => []
  | some l => l

/-- Go: `type OrgUsers []OrgUser` (orgs.go). -/
abbrev OrgUsers : Type := GoSlice OrgUser

/-- A Go `error` result: `none` is the nil error. -/
abbrev GoErr : Type := Option String

/-- Modelled from the spec: the client configuration (base URL and
authentication credential), built once at construction; `Client` itself is
declared in a file of the repository that is not among this development's
sources. -/
structure Client where
  baseURL : String := ""
  apiKey : String := ""
  deriving Repr, DecidableEq

/-- An HTTP request as handed to the transport. -/
structure Request where
  method : String
  path : String
  params : List (String × List String)
  body : Option JVal
  auth : String

/-- An HTTP response: status code, status text, and the body as
`ioutil.ReadAll` would deliver it (see the file comment). -/
structure HttpResponse where
  statusCode : Nat
  status : String
  body : Except String (Option JVal)

/-- Modelled from the spec: `Client.newRequest` (not among this development's
sources) builds the request from method, path relative to the base URL, query
parameters and payload, and attaches the configured credential. -/
def newRequest (c : Client) (method path : String)
    (params : List (String × List String)) (body : Option JVal) : Request :=
  { method := method, path := path, params := params, body := body, auth := c.apiKey }

/-- Modelled from the spec: the transport behind `Client.Do` (not among this
development's sources), as an environment mapping each request to a transport
failure or a response. -/
abbrev Env : Type := Request → Except String HttpResponse

/-- The state an operation threads: the client configuration, the requests
handed to the transport so far, and whether a response body has been read. -/
structure OpState where
  client : Client
  sent : List Request
  bodyRead : Bool

/-- Recording that a request was handed to the transport (`c.Do(req)`). -/
def sendState (s : OpState) (req : Request) : OpState :=
  { s with sent := s.sent ++ [req] }

/-- Recording that the response body was read (`ioutil.ReadAll(resp.Body)`). -/
def readState (s : OpState) : OpState :=
  { s with bodyRead := true }

/-! ### Unmarshalling (`json.Unmarshal`) per target shape -/

/-- `json.Unmarshal` into `Annotation` (a JSON object; `null` is a no-op on the
zero-initialised value). -/
def decodeAnnotation : JVal → Except String Annotation
  | .jnull => .ok {}
  | .jobj f => do
      let id ← jIntField f "id"
      let alertId ← jIntField f "alertId"
      let dashboardId ← jIntField f "dashboardId"
      let panelId ← jIntField f "panelId"
      let userId ← jIntField f "userId"
      let userName ← jStrField f "userName"
      let newState ← jStrField f "newState"
      let prevState ← jStrField f "prevState"
      let time ← jIntField f "time"
      let timeEnd ← jIntField f "timeEnd"
      let text ← jStrField f "text"
      let metric ← jStrField f "metric"
      let regionId ← jIntField f "regionId"
      let ty ← jStrField f "type"
      let tags ← jStrListField f "tags"
      let isRegion ← jBoolField f "isRegion"
      .ok { ID := id, AlertID := alertId, DashboardID := dashboardId, PanelID := panelId,
            UserID := userId, UserName := userName, NewState := newState,
            PrevState := prevState, Time := time, TimeEnd := timeEnd, Text := text,
            Metric := metric, RegionID := regionId, type_ := ty, Tags := tags,
            IsRegion := isRegion }
  | _ => .error "json: cannot unmarshal value into Go value of type gapi.Annotation"

/-- The elements of a JSON array, each decoded as an `Annotation`. -/
def decodeAnnotationElems : List JVal → Except String (List Annotation)
  | [] => .ok []
  | j :: rest => do
      let a ← decodeAnnotation j
      let tl ← decodeAnnotationElems rest
      .ok (a :: tl)

/-- `json.Unmarshal` into `[]Annotation` (`null` is a no-op on the initialised
empty slice). -/
def decodeAnnotationList : JVal → Except String (List Annotation)
  | .jnull => .ok []
  | .jarr es => decodeAnnotationElems es
  | _ => .error "json: cannot unmarshal value into Go value of type []gapi.Annotation"

/-- `json.Unmarshal` into the anonymous struct `{ ID int64 \x60json:"id"\x60 }`
used by the creation endpoints. -/
def decodeIdObj : JVal → Except String Int
  | .jnull => .ok 0
  | .jobj f => jIntField f "id"
  | _ => .error "json: cannot unmarshal value into Go value of type struct"

/-- `json.Unmarshal` into the anonymous struct
`{ Message string \x60json:"message"\x60 }` used by the mutation endpoints. -/
def decodeMessageObj : JVal → Except String String
  | .jnull => .ok ""
  | .jobj f => jStrField f "message"
  | _ => .error "json: cannot unmarshal value into Go value of type struct"

/-- `json.Unmarshal` into `Org`. -/
def decodeOrg : JVal → Except String Org
  | .jnull => .ok {}
  | .jobj f => do
      let id ← jIntField f "id"
      let name ← jStrField f "name"
      .ok { Id := id, Name := name }
  | _ => .error "json: cannot unmarshal value into Go value of type gapi.Org"

/-- The elements of a JSON array, each decoded as an `Org`. -/
def decodeOrgElems : List JVal → Except String (List Org)
  | [] => .ok []
  | j :: rest => do
      let o ← decodeOrg j
      let tl ← decodeOrgElems rest
      .ok (o :: tl)

/-- `json.Unmarshal` into `[]Org`. -/
def decodeOrgList : JVal → Except String (List Org)
  | .jnull => .ok []
  | .jarr es => decodeOrgElems es
  | _ => .error "json: cannot unmarshal value into Go value of type []gapi.Org"

/-- `json.Unmarshal` into `OrgUser`: the embedded `User`'s fields are promoted
to the same JSON object. -/
def decodeOrgUser : JVal → Except String OrgUser
  | .jnull => .ok {}
  | .jobj f => do
      let uid ← jIntField f "id"
      let login ← jStrField f "login"
      let email ← jStrField f "email"
      let role ← jStrField f "role"
      let orgId ← jIntField f "orgId"
      .ok { user := { Id := uid, Login := login, Email := email }, Role := role, OrgID := orgId }
  | _ => .error "json: cannot unmarshal value into Go value of type gapi.OrgUser"

/-- The elements of a JSON array, each decoded as an `OrgUser`. -/
def decodeOrgUserElems : List JVal → Except String (List OrgUser)
  | [] => .ok []
  | j :: rest => do
      let ou ← decodeOrgUser j
      let tl ← decodeOrgUserElems rest
      .ok (ou :: tl)

/-- `json.Unmarshal` into `OrgUsers`. -/
def decodeOrgUserList : JVal → Except String (List OrgUser)
  | .jnull => .ok []
  | .jarr es => decodeOrgUserElems es
  | _ => .error "json: cannot unmarshal value into Go value of type gapi.OrgUsers"

/-- `json.Unmarshal` into `DataSource` (modelled from the spec, see
`DataSource`). -/
def decodeDataSource : JVal → Except String DataSource
  | .jnull => .ok {}
  | .jobj f => do
      let id ← jIntField f "id"
      let name ← jStrField f "name"
      .ok { Id := id, Name := name }
  | _ => .error "json: cannot unmarshal value into Go value of type gapi.DataSource"

/-- The elements of a JSON array, each decoded as a `DataSource`. -/
def decodeDataSourceElems : List JVal → Except String (List DataSource)
  | [] => .ok []
  | j :: rest => do
      let d ← decodeDataSource j
      let tl ← decodeDataSourceElems rest
      .ok (d :: tl)

/-- `json.Unmarshal` into `[]*DataSource`. -/
def decodeDataSourceList : JVal → Except String (List DataSource)
  | .jnull => .ok []
  | .jarr es => decodeDataSourceElems es
  | _ => .error "json: cannot unmarshal value into Go value of type []*gapi.DataSource"

/-! ### Marshalling (`json.Marshal`) of the outbound payloads

`json.Marshal` cannot fail on any of the record types the source passes it
(plain structs and a `map[string]string`: no channels, functions or cycles),
so the encoders are total; where the source still binds `Marshal`'s error the
operation checks it as the source does (vacuously here). -/

/-- Whether an `omitempty` field of its type is dropped. -/
def omitInt (n : Int) (k : String) (v : JVal) : List (String × JVal) :=
  if n = 0 then [] else [(k, v)]

/-- Whether an `omitempty` string field is dropped. -/
def omitStr (s : String) (k : String) : List (String × JVal) :=
  if s = "" then [] else [(k, .jstr s)]

/-- `json.Marshal` of an `Annotation` with the source's field tags
(`omitempty` on the optional fields). -/
def encodeAnnotation (a : Annotation) : JVal :=
  .jobj (omitInt a.ID "id" (.jnum a.ID) ++
    omitInt a.AlertID "alertId" (.jnum a.AlertID) ++
    [("dashboardId", .jnum a.DashboardID), ("panelId", .jnum a.PanelID)] ++
    omitInt a.UserID "userId" (.jnum a.UserID) ++
    omitStr a.UserName "userName" ++
    omitStr a.NewState "newState" ++
    omitStr a.PrevState "prevState" ++
    [("time", .jnum a.Time)] ++
    omitInt a.TimeEnd "timeEnd" (.jnum a.TimeEnd) ++
    [("text", .jstr a.Text)] ++
    omitStr a.Metric "metric" ++
    omitInt a.RegionID "regionId" (.jnum a.RegionID) ++
    omitStr a.type_ "type" ++
    (if a.Tags = [] then [] else [("tags", .jarr (a.Tags.map .jstr))]) ++
    (if a.IsRegion then [("isRegion", .jbool true)] else []))

/-- `json.Marshal` of a `GraphiteAnnotation` with the source's field tags. -/
def encodeGraphiteAnnotation (g : GraphiteAnnotation) : JVal :=
  .jobj ([("what", .jstr g.What), ("when", .jnum g.When), ("data", .jstr g.Data)] ++
    (if g.Tags = [] then [] else [("tags", .jarr (g.Tags.map .jstr))]))

/-- `json.Marshal` of an `Org`. -/
def encodeOrg (o : Org) : JVal :=
  .jobj [("id", .jnum o.Id), ("name", .jstr o.Name)]

/-- `json.Marshal` of `map[string]string{"role": role, "loginOrEmail":
username}` (Go marshals map keys in sorted order). -/
def addUserBody (username role : String) : JVal :=
  .jobj [("loginOrEmail", .jstr username), ("role", .jstr role)]

/-! ### The operations (annotation.go) -/

/-- Go: `func (c *Client) Annotations(params url.Values) ([]Annotation, error)`
(annotation.go).  Note the source's request path is `/api/annotation`,
singular. -/
def Client.Annotations (env : Env) (params : List (String × List String))
    (s : OpState) : (GoSlice Annotation × GoErr) × OpState :=
  let req := newRequest s.client "GET" "/api/annotation" params none
  let s := sendState s req
  match env req with
  | .error e => ((none, some e), s)
  | .ok resp =>
    if resp.statusCode ≠ 200 then ((none, some resp.status), s)
    else
      let s := readState s
      match resp.body with
      | .error e => ((none, some e), s)
      | .ok none => ((some [], some errNotJSON), s)
      | .ok (some j) =>
        match decodeAnnotationList j with
        | .ok l => ((some l, none), s)
        | .error e => ((some [], some e), s)

/-- Go's `for _, a := range as { if a.ID == id { return a, nil } }` loop of
`Client.Annotation`, as the first element with the wanted id. -/
def scanByID (id : Int) : List Annotation → Option Annotation
  | [] => none
  | a :: rest => if a.ID = id then some a else scanByID id rest

/-- Go: `func (c *Client) Annotation(id int64, params url.Values) (Annotation,
error)` (annotation.go): fetch the whole collection, then linear-scan it. -/
def Client.Annotation (env : Env) (id : Int) (params : List (String × List String))
    (s : OpState) : ( Gapi.Annotation × GoErr) × OpState :=
  let r := Client.Annotations env params s
  match r.1.2 with
  | some e => (({}, some e), r.2)
  | none =>
    match scanByID id (sliceList r.1.1) with
    | some a => ((a, none), r.2)
    | none => (({}, some ("annotation " ++ toString id ++ " not found")), r.2)

/-- Go: `func (c *Client) NewAnnotation(a *Annotation) (int64, error)`
(annotation.go). -/
def Client.NewAnnotation (env : Env) (a : Gapi.Annotation) (s : OpState) :
    (Int × GoErr) × OpState :=
  let req := newRequest s.client "POST" "/api/annotations" [] (some ( encodeAnnotation a))
  let s := sendState s req
  match env req with
  | .error e => ((0, some e), s)
  | .ok resp =>
    if resp.statusCode ≠ 200 then ((0, some resp.status), s)
    else
      let s := readState s
      match resp.body with
      | .error e => ((0, some e), s)
      | .ok none => ((0, some errNotJSON), s)
      | .ok (some j) =>
        match decodeIdObj j with
        | .ok n => ((n, none), s)
        | .error e => ((0, some e), s)

/-- Go: `func (c *Client) NewGraphiteAnnotation(gfa *GraphiteAnnotation)
(int64, error)` (annotation.go). -/
def Client.NewGraphiteAnnotation (env : Env) (gfa : GraphiteAnnotation) (s : OpState) :
    (Int × GoErr) × OpState :=
  let req := newRequest s.client "POST" "/api/annotations/graphite" []
    (some ( encodeGraphiteAnnotation gfa))
  let s := sendState s req
  match env req with
  | .error e => ((0, some e), s)
  | .ok resp =>
    if resp.statusCode ≠ 200 then ((0, some resp.status), s)
    else
      let s := readState s
      match resp.body with
      | .error e => ((0, some e), s)
      | .ok none => ((0, some errNotJSON), s)
      | .ok (some j) =>
        match decodeIdObj j with
        | .ok n => ((n, none), s)
        | .error e => ((0, some e), s)

/-- Shared shape of the `{message}`-returning annotation endpoints
(`UpdateAnnotation`, `PatchAnnotation`, `DeleteAnnotation`,
`DeleteAnnotationByRegionID` differ only in method, path and payload). -/
def messageOp (env : Env) (method path : String) (body : Option JVal) (s : OpState) :
    (String × GoErr) × OpState :=
  let req := newRequest s.client method path [] body
  let s := sendState s req
  match env req with
  | .error e => (("", some e), s)
  | .ok resp =>
    if resp.statusCode ≠ 200 then (("", some resp.status), s)
    else
      let s := readState s
      match resp.body with
      | .error e => (("", some e), s)
      | .ok none => (("", some errNotJSON), s)
      | .ok (some j) =>
        match decodeMessageObj j with
        | .ok m => ((m, none), s)
        | .error e => (("", some e), s)

/-- Go: `func (c *Client) UpdateAnnotation(id int64, a *Annotation) (string,
error)` (annotation.go): `PUT /api/annotations/{id}`. -/
def Client.UpdateAnnotation (env : Env) (id : Int) (a : Gapi.Annotation) (s : OpState) :
    (String × GoErr) × OpState :=
  messageOp env "PUT" ("/api/annotations/" ++ toString id) (some ( encodeAnnotation a)) s

/-- Go: `func (c *Client) PatchAnnotation(id int64, a *Annotation) (string,
error)` (annotation.go): `PATCH /api/annotations/{id}`. -/
def Client.PatchAnnotation (env : Env) (id : Int) (a : Gapi.Annotation) (s : OpState) :
    (String × GoErr) × OpState :=
  messageOp env "PATCH" ("/api/annotations/" ++ toString id) (some ( encodeAnnotation a)) s

/-- Go: `func (c *Client) DeleteAnnotation(id int64) (string, error)`
(annotation.go): `DELETE /api/annotations/{id}` with an empty payload. -/
def Client.DeleteAnnotation (env : Env) (id : Int) (s : OpState) :
    (String × GoErr) × OpState :=
  messageOp env "DELETE" ("/api/annotations/" ++ toString id) none s

/-- Go: `func (c *Client) DeleteAnnotationByRegionID(id int64) (string, error)`
(annotation.go): `DELETE /api/annotations/region/{id}`. -/
def Client.DeleteAnnotationByRegionID (env : Env) (id : Int) (s : OpState) :
    (String × GoErr) × OpState :=
  messageOp env "DELETE" ("/api/annotations/region/" ++ toString id) none s

/-! ### The operations (orgs.go) -/

/-- Go: `const OrgUserRoleViewer = "Viewer"` (orgs.go). -/
def OrgUserRoleViewer : String := "Viewer"

/-- Go: `const OrgUserRoleAdmin = "Admin"` (orgs.go). -/
def OrgUserRoleAdmin : String := "Admin"

/-- Go: `const OrgUserRoleEditor = "Editor"` (orgs.go). -/
def OrgUserRoleEditor : String := "Editor"

/-- Go: `func (o Org) AddUser(c *Client, username, role string) error`
(orgs.go): validate the role, then `POST /api/orgs/{id}/users`. -/
def Org.AddUser (o : Org) (env : Env) (username role : String) (s : OpState) :
    GoErr × OpState :=
  let validRole := role == OrgUserRoleAdmin || role == OrgUserRoleEditor ||
    role == OrgUserRoleViewer
  if !validRole then (some ("invalid role name: " ++ role), s)
  else
    let req := newRequest s.client "POST" ("/api/orgs/" ++ toString o.Id ++ "/users") []
      (some (addUserBody username role))
    let s := sendState s req
    match env req with
    | .error e => (some e, s)
    | .ok resp =>
      if resp.statusCode ≠ 200 then (some resp.status, s)
      else
        let s := readState s
        match resp.body with
        | .error e => (some e, s)
        | .ok _ => (none, s)

/-- Go: `func (o Org) Dashboards(c *Client) ([]*Dashboard, error)` (orgs.go):
a stub returning an empty slice and a "not implemented" error, touching
neither the client nor the network. -/
def Org.Dashboards (_o : Org) (_env : Env) (s : OpState) :
    (GoSlice Dashboard × GoErr) × OpState :=
  ((some [], some "not implemented"), s)

/-- Go: `func (o Org) Users(c *Client) ([]OrgUser, error)` (orgs.go):
`GET /api/orgs/{id}/users`; every error path returns the initialised empty
slice. -/
def Org.Users (o : Org) (env : Env) (s : OpState) :
    (GoSlice OrgUser × GoErr) × OpState :=
  let req := newRequest s.client "GET" ("/api/orgs/" ++ toString o.Id ++ "/users") [] none
  let s := sendState s req
  match env req with
  | .error e => ((some [], some e), s)
  | .ok resp =>
    if resp.statusCode ≠ 200 then ((some [], some resp.status), s)
    else
      let s := readState s
      match resp.body with
      | .error e => ((some [], some e), s)
      | .ok none => ((some [], some errNotJSON), s)
      | .ok (some j) =>
        match decodeOrgUserList j with
        | .ok l => ((some l, none), s)
        | .error e => ((some [], some e), s)

/-- Go: `func (o Org) RemoveUser(c *Client, userID int64) error` (orgs.go):
`DELETE /api/orgs/{id}/users/{userID}`. -/
def Org.RemoveUser (o : Org) (env : Env) (userID : Int) (s : OpState) :
    GoErr × OpState :=
  let req := newRequest s.client "DELETE"
    ("/api/orgs/" ++ toString o.Id ++ "/users/" ++ toString userID) [] none
  let s := sendState s req
  match env req with
  | .error e => (some e, s)
  | .ok resp =>
    if resp.statusCode ≠ 200 then (some resp.status, s)
    else
      let s := readState s
      match resp.body with
      | .error e => (some e, s)
      | .ok _ => (none, s)

/-- Modelled from the spec: `Client.DataSourcesByOrgId` is defined in a file
of the repository that is not among this development's sources; the spec
describes `Org.DataSources` as a call-through accessor issuing a further
request through the same executor shape (build a GET request, send it, check
for status 200, read and decode the body).  The concrete path string is
schematic, as the spec does not give it. -/
def Client.DataSourcesByOrgId (env : Env) (orgId : Int) (s : OpState) :
    (GoSlice DataSource × GoErr) × OpState :=
  let req := newRequest s.client "GET" ("/api/datasources/org/" ++ toString orgId) [] none
  let s := sendState s req
  match env req with
  | .error e => ((none, some e), s)
  | .ok resp =>
    if resp.statusCode ≠ 200 then ((none, some resp.status), s)
    else
      let s := readState s
      match resp.body with
      | .error e => ((none, some e), s)
      | .ok none => ((none, some errNotJSON), s)
      | .ok (some j) =>
        match decodeDataSourceList j with
        | .ok l => ((some l, none), s)
        | .error e => ((none, some e), s)

/-- Go: `func (o Org) DataSources(c *Client) ([]*DataSource, error)`
(orgs.go): a call-through to `c.DataSourcesByOrgId(o.Id)`. -/
def Org.DataSources (o : Org) (env : Env) (s : OpState) :
    (GoSlice DataSource × GoErr) × OpState :=
  Client.DataSourcesByOrgId env o.Id s

/-- Go: `func (ousers OrgUsers) Users() []User` (orgs.go): collect the
embedded `User` of every element by appending to an initialised empty slice. -/
def OrgUsers.Users (ousers : OrgUsers) : GoSlice User :=
  some ((sliceList ousers).foldl (fun users ou => users ++ [ou.user]) [])

/-- Go: `func (c *Client) Org(id int64) (Org, error)` (orgs.go):
`GET /api/orgs/{id}`. -/
def Client.Org (env : Env) (id : Int) (s : OpState) : ( Gapi.Org × GoErr) × OpState :=
  let req := newRequest s.client "GET" ("/api/orgs/" ++ toString id) [] none
  let s := sendState s req
  match env req with
  | .error e => (({}, some e), s)
  | .ok resp =>
    if resp.statusCode ≠ 200 then (({}, some resp.status), s)
    else
      let s := readState s
      match resp.body with
      | .error e => (({}, some e), s)
      | .ok none => (({}, some errNotJSON), s)
      | .ok (some j) =>
        match decodeOrg j with
        | .ok o => ((o, none), s)
        | .error e => (({}, some e), s)

/-- Go: `func (c *Client) OrgByName(name string) (Org, error)` (orgs.go):
`GET /api/orgs/name/{name}`. -/
def Client.OrgByName (env : Env) (name : String) (s : OpState) :
    ( Gapi.Org × GoErr) × OpState :=
  let req := newRequest s.client "GET" ("/api/orgs/name/" ++ name) [] none
  let s := sendState s req
  match env req with
  | .error e => (({}, some e), s)
  | .ok resp =>
    if resp.statusCode ≠ 200 then (({}, some resp.status), s)
    else
      let s := readState s
      match resp.body with
      | .error e => (({}, some e), s)
      | .ok none => (({}, some errNotJSON), s)
      | .ok (some j) =>
        match decodeOrg j with
        | .ok o => ((o, none), s)
        | .error e => (({}, some e), s)

/-- Go: `func (c *Client) Orgs() ([]Org, error)` (orgs.go): `GET /api/orgs/`;
every error path returns the initialised empty slice. -/
def Client.Orgs (env : Env) (s : OpState) : (GoSlice Gapi.Org × GoErr) × OpState :=
  let req := newRequest s.client "GET" "/api/orgs/" [] none
  let s := sendState s req
  match env req with
  | .error e => ((some [], some e), s)
  | .ok resp =>
    if resp.statusCode ≠ 200 then ((some [], some resp.status), s)
    else
      let s := readState s
      match resp.body with
      | .error e => ((some [], some e), s)
      | .ok none => ((some [], some errNotJSON), s)
      | .ok (some j) =>
        match decodeOrgList j with
        | .ok l => ((some l, none), s)
        | .error e => ((some [], some e), s)

/-- `json.Unmarshal` into the anonymous struct
`{ ID int64 \x60json:"orgId"\x60 }` of `NewOrg` with the error discarded, as
the source discards it (`json.Unmarshal(data, &body)` binds no error): a body
that fails to unmarshal leaves the zero-initialised struct. -/
def newOrgIdOfBody (bytes : Option JVal) : Int :=
  match bytes with
  | some (.jobj f) =>
    match jLookup f "orgId" with
    | some (.jnum n) => n
    | _ => 0
  | _ => 0

/-- Go: `func (c *Client) NewOrg(name string) (Org, error)` (orgs.go):
`POST /api/orgs`.  Transliterated quirks of the source: the `json.Marshal`
error is overwritten unchecked by the `newRequest` call on the next line; on
status 200 the returned error is `ioutil.ReadAll`'s, while the
`json.Unmarshal` error is discarded (see `newOrgIdOfBody`); every return
yields `org`, whose `Name` is the argument. -/
def Client.NewOrg (env : Env) (name : String) (s : OpState) : ( Gapi.Org × GoErr) × OpState :=
  let org : Gapi.Org := { Name := name }
  let _data := encodeOrg org
  let req := newRequest s.client "POST" "/api/orgs" [] (some (encodeOrg org))
  let s := sendState s req
  match env req with
  | .error e => ((org, some e), s)
  | .ok resp =>
    if resp.statusCode ≠ 200 then ((org, some resp.status), s)
    else
      let s := readState s
      match resp.body with
      | .error e => (({ org with Id := 0 }, some e), s)
      | .ok bytes => (({ org with Id := newOrgIdOfBody bytes }, none), s)

/-- Go: `func (c *Client) DeleteOrg(id int64) error` (orgs.go):
`DELETE /api/orgs/{id}`; the body is never read. -/
def Client.DeleteOrg (env : Env) (id : Int) (s : OpState) : GoErr × OpState :=
  let req := newRequest s.client "DELETE" ("/api/orgs/" ++ toString id) [] none
  let s := sendState s req
  match env req with
  | .error e => (some e, s)
  | .ok resp =>
    if resp.statusCode ≠ 200 then (some resp.status, s)
    else (none, s)

/-! ### Concrete fixtures for witnesses and counterexamples -/

/-- A concrete starting state: a freshly constructed client, nothing sent,
no body read. -/
def state0 : OpState :=
  { client := { baseURL := "http://grafana.example", apiKey := "key" },
    sent := [], bodyRead := false }

/-- A concrete 404 response. -/
def resp404 : HttpResponse :=
  { statusCode := 404, status := "404 Not Found", body := Except.ok none }

/-- A concrete 200 response whose body is not well-formed JSON. -/
def resp200Bad : HttpResponse :=
  { statusCode := 200, status := "200 OK", body := Except.ok none }

/-- A transport answering every request with status 200 and the list body
`[{"id":1},{"id":5}]`. -/
def annListEnv : Env := fun _ =>
  Except.ok
    { statusCode := 200, status := "200 OK",
      body := Except.ok (some (.jarr [.jobj [("id", .jnum 1)], .jobj [("id", .jnum 5)]])) }

/-! ### Theorems -/

/-- C9: for every org value, transport and state, `Org.Dashboards` returns the
empty (non-nil) dashboard slice with the non-nil "not implemented" error and
leaves the state untouched: no request is built or handed to the transport. -/
theorem dashboards_not_implemented (o : Org) (env : Env) (s : OpState) :
    Org.Dashboards o env s = ((some [], some "not implemented"), s) := rfl

/-- The append-loop of `OrgUsers.Users` collects exactly the mapped embedded
users. -/
theorem foldl_append_user (l : List OrgUser) (acc : List User) :
    l.foldl (fun users ou => users ++ [ou.user]) acc = acc ++ l.map OrgUser.user := by
  induction l generalizing acc with
  | nil => simp
  | cons ou tl ih => simp [ih]

/-- C10: `OrgUsers.Users` returns a non-nil slice holding exactly the embedded
`User` values of the receiver's elements, in order (hence of the same
length); on an empty or nil receiver it returns the empty non-nil slice. -/
theorem orgUsers_users_map (ousers : OrgUsers) :
    OrgUsers.Users ousers = some ((sliceList ousers).map OrgUser.user) ∧
    OrgUsers.Users (some []) = some [] ∧
    OrgUsers.Users none = some [] := by
  refine ⟨?_, rfl, rfl⟩
  simp [OrgUsers.Users, foldl_append_user]

/-- C2 (evidence of the code bug): on a 200 response whose body is not valid
JSON, `NewOrg` returns a nil error and an `Org` with zero id — the
`json.Unmarshal` error is discarded by the source (`json.Unmarshal(data,
&body)` binds no error), so a malformed-deserialization failure is not
reported to the caller. -/
theorem newOrg_swallows_unmarshal_error :
    ( Client.NewOrg (fun _ => Except.ok resp200Bad) "x" state0).1 =
      ({ Id := 0, Name := "x" }, none) := rfl

/-- C6 (evidence of the code bug): the annotation list operation hands the
transport a `GET` request on `/api/annotation` (singular) — not
`/api/annotations`, the path the spec assigns to it (and the stem every
sibling annotation endpoint of the source uses). -/
theorem annotations_path_singular :
    (( Client.Annotations (fun _ => Except.ok resp404) [] state0).2.sent.map
      (fun r => (r.method, r.path))) = [("GET", "/api/annotation")] ∧
    "/api/annotation" ≠ "/api/annotations" := ⟨rfl, by decide⟩

/-- C4: for every transport, org, username and state, `AddUser` with a role
outside {Admin, Editor, Viewer} returns the non-nil "invalid role name" error
with the state untouched — no request built or handed to the transport — and
with a role inside the set it hands the transport exactly the
`POST /api/orgs/{id}/users` request. -/
theorem addUser_role_validation (env : Env) (o : Org) (username role : String)
    (s : OpState) :
    ((role == OrgUserRoleAdmin || role == OrgUserRoleEditor ||
        role == OrgUserRoleViewer) = false →
      Org.AddUser o env username role s = (some ("invalid role name: " ++ role), s)) ∧
    ((role == OrgUserRoleAdmin || role == OrgUserRoleEditor ||
        role == OrgUserRoleViewer) = true →
      ( Org.AddUser o env username role s).2.sent =
        s.sent ++ [newRequest s.client "POST" ("/api/orgs/" ++ toString o.Id ++ "/users")
          [] (some (addUserBody username role))]) := by
  constructor
  · intro h
    simp [Org.AddUser, h]
  · intro h
    simp only [Org.AddUser, h, Bool.not_true, Bool.false_eq_true, if_false]
    (repeat' split) <;> rfl

/-- Witness for C4: the role "Owner" is rejected with the state untouched,
and the role "Editor" sends the membership request. -/
theorem addUser_role_validation_witness :
    Org.AddUser {} (fun _ => Except.ok resp404) "alice" "Owner" state0 =
      (some "invalid role name: Owner", state0) ∧
    ( Org.AddUser {} (fun _ => Except.ok resp404) "alice" "Editor" state0).2.sent =
      state0.sent ++ [newRequest state0.client "POST" "/api/orgs/0/users" []
        (some (addUserBody "alice" "Editor"))] := by
  constructor
  · exact (addUser_role_validation (fun _ => Except.ok resp404) {} "alice" "Owner"
      state0).1 (by decide)
  · exact (addUser_role_validation (fun _ => Except.ok resp404) {} "alice" "Editor"
      state0).2 (by decide)

/-- C5: on a 200 response whose JSON object body has the numeric field
`"id"`, `NewAnnotation` returns that number with a nil error. -/
theorem newAnnotation_returns_id (a : Annotation) (st : String)
    (fields : List (String × JVal)) (n : Int)
    (hid : jLookup fields "id" = some (.jnum n)) (s : OpState) :
    ( Client.NewAnnotation
      (fun _ => Except.ok
        { statusCode := 200, status := st, body := Except.ok (some (.jobj fields)) })
      a s).1 = (n, none) := by
  simp [Client.NewAnnotation, decodeIdObj, jIntField, hid, sendState, readState]

/-- Witness for C5: status 200 with body `{"id": 42}` yields `(42, nil)`. -/
theorem newAnnotation_returns_id_witness :
    ( Client.NewAnnotation
      (fun _ => Except.ok
        { statusCode := 200, status := "200 OK",
          body := Except.ok (some (.jobj [("id", .jnum 42)])) })
      {} state0).1 = (42, none) :=
  newAnnotation_returns_id {} "200 OK" [("id", .jnum 42)] 42 (by simp [jLookup]) state0

/-- A hit of the scan loop is an element of the list with the wanted id. -/
theorem scanByID_eq_some {id : Int} {l : List Annotation} {a : Annotation}
    (h : scanByID id l = some a) : a ∈ l ∧ a.ID = id := by
  induction l with
  | nil => simp [scanByID] at h
  | cons b tl ih =>
    by_cases hb : b.ID = id
    · simp only [scanByID, hb, if_pos, Option.some.injEq] at h
      subst h
      exact ⟨List.mem_cons_self b tl, hb⟩
    · simp only [scanByID, hb, if_neg, if_false] at h
      rcases ih h with ⟨hmem, hid⟩
      exact ⟨List.mem_cons_of_mem b hmem, hid⟩

/-- When some element of the list has the wanted id, the scan loop hits. -/
theorem scanByID_hit {id : Int} {l : List Annotation} (a : Annotation)
    (ha : a ∈ l) (hid : a.ID = id) : ∃ b, scanByID id l = some b := by
  induction l with
  | nil => cases ha
  | cons b tl ih =>
    by_cases hb : b.ID = id
    · exact ⟨b, by simp [scanByID, hb]⟩
    · rcases List.mem_cons.mp ha with h1 | h1
      · subst h1; exact absurd hid hb
      · rcases ih h1 with ⟨c, hc⟩
        exact ⟨c, by simp [scanByID, hb, hc]⟩

/-- C3: `Client.Annotation` fetches the full collection and linear-scans it.
When the fetch yields list `l` with a nil error: the id-and-params fetch has
exactly the list fetch's effects; if some element of `l` has the wanted id,
an element with that id is returned with a nil error; if no element has it,
the zero record and the "not found" error naming the id are returned. -/
theorem annotation_scan_spec (env : Env) (id : Int)
    (params : List (String × List String)) (s : OpState) (l : List Annotation)
    (h : ( Client.Annotations env params s).1 = (some l, none)) :
    ( Client.Annotation env id params s).2 = ( Client.Annotations env params s).2 ∧
    ((∃ a ∈ l, a.ID = id) →
      ∃ a ∈ l, a.ID = id ∧ ( Client.Annotation env id params s).1 = (a, none)) ∧
    ((∀ a ∈ l, a.ID ≠ id) →
      ( Client.Annotation env id params s).1 =
        ({}, some ("annotation " ++ toString id ++ " not found"))) := by
  have hunf : Client.Annotation env id params s =
      (match scanByID id l with
       | some a => ((a, none), ( Client.Annotations env params s).2)
       | none => (({}, some ("annotation " ++ toString id ++ " not found")),
          ( Client.Annotations env params s).2)) := by
    unfold Client.Annotation
    simp [h, sliceList]
  refine ⟨?_, ?_, ?_⟩
  · rw [hunf]
    cases scanByID id l <;> rfl
  · rintro ⟨a, ha, hid⟩
    rcases scanByID_hit a ha hid with ⟨b, hb⟩
    rcases scanByID_eq_some hb with ⟨hbmem, hbid⟩
    refine ⟨b, hbmem, hbid, ?_⟩
    rw [hunf, hb]
  · intro hall
    rcases hscan : scanByID id l with _ | a
    · rw [hunf, hscan]
    · rcases scanByID_eq_some hscan with ⟨hamem, haid⟩
      exact absurd haid (hall a hamem)

/-- Witness for C3: over the list body `[{"id":1},{"id":5}]`, fetching id 5
returns that record with a nil error, and fetching id 7 returns the zero
record with the "annotation 7 not found" error. -/
theorem annotation_scan_spec_witness :
    ( Client.Annotation annListEnv 5 [] state0).1 = ({ ID := 5 }, none) ∧
    ( Client.Annotation annListEnv 7 [] state0).1 =
      ({}, some "annotation 7 not found") := by
  have h : ( Client.Annotations annListEnv [] state0).1 =
      (some [{ ID := 1 }, { ID := 5 }], none) := by rfl
  constructor
  · have h5 := (annotation_scan_spec annListEnv 5 [] state0 _ h).2.1
      ⟨{ ID := 5 }, by simp, rfl⟩
    rcases h5 with ⟨a, hmem, hid, hres⟩
    rcases List.mem_cons.mp hmem with h1 | h1
    · subst h1; exact absurd hid (by decide)
    · have h2 : a = { ID := 5 } := by simpa using h1
      subst h2; exact hres
  · exact (annotation_scan_spec annListEnv 7 [] state0 _ h).2.2 (by decide)

/-- C1 (amended): when the transport yields a response whose HTTP status code
is not exactly 200 (any non-200 code, 2xx or otherwise), every operation
returns a non-nil error whose message is the response status text and parses
no resource; every operation except `NewOrg` returns its zero/empty result
value, while `NewOrg` returns the record `{Name := name}` it pre-built from
its argument (zero id).  For `AddUser` the role is assumed valid, as an
invalid role never reaches the transport. -/
theorem non200_returns_status_error (resp : HttpResponse) (h : resp.statusCode ≠ 200)
    (params : List (String × List String)) (id userID : Int) (a : Annotation)
    (g : GraphiteAnnotation) (o : Org) (username role oname : String)
    (hrole : role = OrgUserRoleAdmin ∨ role = OrgUserRoleEditor ∨
      role = OrgUserRoleViewer)
    (s : OpState) :
    ( Client.Annotations (fun _ => Except.ok resp) params s).1 =
      (none, some resp.status) ∧
    ( Client.Annotation (fun _ => Except.ok resp) id params s).1 =
      ({}, some resp.status) ∧
    ( Client.NewAnnotation (fun _ => Except.ok resp) a s).1 = (0, some resp.status) ∧
    ( Client.NewGraphiteAnnotation (fun _ => Except.ok resp) g s).1 =
      (0, some resp.status) ∧
    ( Client.UpdateAnnotation (fun _ => Except.ok resp) id a s).1 =
      ("", some resp.status) ∧
    ( Client.PatchAnnotation (fun _ => Except.ok resp) id a s).1 =
      ("", some resp.status) ∧
    ( Client.DeleteAnnotation (fun _ => Except.ok resp) id s).1 =
      ("", some resp.status) ∧
    ( Client.DeleteAnnotationByRegionID (fun _ => Except.ok resp) id s).1 =
      ("", some resp.status) ∧
    ( Org.AddUser o (fun _ => Except.ok resp) username role s).1 =
      some resp.status ∧
    ( Org.Users o (fun _ => Except.ok resp) s).1 = (some [], some resp.status) ∧
    ( Org.RemoveUser o (fun _ => Except.ok resp) userID s).1 = some resp.status ∧
    ( Client.Org (fun _ => Except.ok resp) id s).1 = ({}, some resp.status) ∧
    ( Client.OrgByName (fun _ => Except.ok resp) oname s).1 =
      ({}, some resp.status) ∧
    ( Client.Orgs (fun _ => Except.ok resp) s).1 = (some [], some resp.status) ∧
    ( Client.NewOrg (fun _ => Except.ok resp) oname s).1 =
      ({ Name := oname }, some resp.status) ∧
    ( Client.DeleteOrg (fun _ => Except.ok resp) id s).1 = some resp.status := by
  have hl : ( Client.Annotations (fun _ => Except.ok resp) params s).1 =
      (none, some resp.status) := by
    simp [Client.Annotations, h]
  refine ⟨hl, ?_, ?_, ?_, ?_, ?_, ?_, ?_, ?_, ?_, ?_, ?_, ?_, ?_, ?_, ?_⟩
  · unfold Client.Annotation
    simp [hl]
  · simp [Client.NewAnnotation, h]
  · simp [Client.NewGraphiteAnnotation, h]
  · simp [Client.UpdateAnnotation, messageOp, h]
  · simp [Client.PatchAnnotation, messageOp, h]
  · simp [Client.DeleteAnnotation, messageOp, h]
  · simp [Client.DeleteAnnotationByRegionID, messageOp, h]
  · rcases hrole with hr | hr | hr <;> subst hr <;>
      simp [Org.AddUser, OrgUserRoleAdmin, OrgUserRoleEditor, OrgUserRoleViewer, h]
  · simp [Org.Users, h]
  · simp [Org.RemoveUser, h]
  · simp [Client.Org, h]
  · simp [Client.OrgByName, h]
  · simp [Client.Orgs, h]
  · simp [Client.NewOrg, h]
  · simp [Client.DeleteOrg, h]

/-- Counterexample to C1 as stated: `NewOrg` against a 404 response returns
the status-text error together with `{Id := 0, Name := "x"}`, which is not
the zero `Org` value — the pre-built record keeps the requested name. -/
theorem non200_neworg_result_not_zero :
    ( Client.NewOrg (fun _ => Except.ok resp404) "x" state0).1 =
      ({ Id := 0, Name := "x" }, some "404 Not Found") ∧
    ({ Id := 0, Name := "x" } : Org) ≠ ({} : Org) := ⟨rfl, by decide⟩

/-- Witness for C1 at a concrete 404 response: the `Orgs` and `Org.Users`
conjuncts, instantiated and with both hypotheses discharged. -/
theorem non200_returns_status_error_witness :
    ( Client.Orgs (fun _ => Except.ok resp404) state0).1 =
      (some [], some "404 Not Found") ∧
    ( Org.Users {} (fun _ => Except.ok resp404) state0).1 =
      (some [], some "404 Not Found") := by
  have hth := non200_returns_status_error resp404 (by decide) [] 0 0 {} {} {}
    "alice" "Viewer" "neworg" (Or.inr (Or.inr rfl)) state0
  exact ⟨hth.2.2.2.2.2.2.2.2.2.2.2.2.2.1, hth.2.2.2.2.2.2.2.2.2.1⟩

/-- C8: when the transport yields a response whose status code is not 200,
every operation returns without reading the response body: the `bodyRead`
flag is exactly what it was before the call.  (`ioutil.ReadAll` sits after
the status check on every path of the source; `AddUser` with an invalid role
returns even earlier.) -/
theorem non200_body_unread (resp : HttpResponse) (h : resp.statusCode ≠ 200)
    (params : List (String × List String)) (id userID orgId : Int) (a : Annotation)
    (g : GraphiteAnnotation) (o : Org) (username role oname : String) (s : OpState) :
    (( Client.Annotations (fun _ => Except.ok resp) params s).2).bodyRead = s.bodyRead ∧
    (( Client.Annotation (fun _ => Except.ok resp) id params s).2).bodyRead = s.bodyRead ∧
    (( Client.NewAnnotation (fun _ => Except.ok resp) a s).2).bodyRead = s.bodyRead ∧
    (( Client.NewGraphiteAnnotation (fun _ => Except.ok resp) g s).2).bodyRead =
      s.bodyRead ∧
    (( Client.UpdateAnnotation (fun _ => Except.ok resp) id a s).2).bodyRead =
      s.bodyRead ∧
    (( Client.PatchAnnotation (fun _ => Except.ok resp) id a s).2).bodyRead =
      s.bodyRead ∧
    (( Client.DeleteAnnotation (fun _ => Except.ok resp) id s).2).bodyRead =
      s.bodyRead ∧
    (( Client.DeleteAnnotationByRegionID (fun _ => Except.ok resp) id s).2).bodyRead =
      s.bodyRead ∧
    (( Org.AddUser o (fun _ => Except.ok resp) username role s).2).bodyRead =
      s.bodyRead ∧
    (( Org.Dashboards o (fun _ => Except.ok resp) s).2).bodyRead = s.bodyRead ∧
    (( Org.Users o (fun _ => Except.ok resp) s).2).bodyRead = s.bodyRead ∧
    (( Org.RemoveUser o (fun _ => Except.ok resp) userID s).2).bodyRead = s.bodyRead ∧
    (( Org.DataSources o (fun _ => Except.ok resp) s).2).bodyRead = s.bodyRead ∧
    (( Client.DataSourcesByOrgId (fun _ => Except.ok resp) orgId s).2).bodyRead =
      s.bodyRead ∧
    (( Client.Org (fun _ => Except.ok resp) id s).2).bodyRead = s.bodyRead ∧
    (( Client.OrgByName (fun _ => Except.ok resp) oname s).2).bodyRead = s.bodyRead ∧
    (( Client.Orgs (fun _ => Except.ok resp) s).2).bodyRead = s.bodyRead ∧
    (( Client.NewOrg (fun _ => Except.ok resp) oname s).2).bodyRead = s.bodyRead ∧
    (( Client.DeleteOrg (fun _ => Except.ok resp) id s).2).bodyRead = s.bodyRead := by
  have hl : ( Client.Annotations (fun _ => Except.ok resp) params s) =
      ((none, some resp.status), sendState s
        (newRequest s.client "GET" "/api/annotation" params none)) := by
    simp [Client.Annotations, h]
  refine ⟨?_, ?_, ?_, ?_, ?_, ?_, ?_, ?_, ?_, ?_, ?_, ?_, ?_, ?_, ?_, ?_, ?_, ?_, ?_⟩
  · rw [hl]; rfl
  · unfold Client.Annotation
    rw [hl]; rfl
  · simp [Client.NewAnnotation, h, sendState]
  · simp [Client.NewGraphiteAnnotation, h, sendState]
  · simp [Client.UpdateAnnotation, messageOp, h, sendState]
  · simp [Client.PatchAnnotation, messageOp, h, sendState]
  · simp [Client.DeleteAnnotation, messageOp, h, sendState]
  · simp [Client.DeleteAnnotationByRegionID, messageOp, h, sendState]
  · simp only [Org.AddUser]
    split
    · rfl
    · simp [h, sendState]
  · rfl
  · simp [Org.Users, h, sendState]
  · simp [Org.RemoveUser, h, sendState]
  · simp [Org.DataSources, Client.DataSourcesByOrgId, h, sendState]
  · simp [Client.DataSourcesByOrgId, h, sendState]
  · simp [Client.Org, h, sendState]
  · simp [Client.OrgByName, h, sendState]
  · simp [Client.Orgs, h, sendState]
  · simp [Client.NewOrg, h, sendState]
  · simp [Client.DeleteOrg, h, sendState]

/-- Witness for C8 at a concrete 404 response: the list fetch and the org
fetch leave the body-read flag false. -/
theorem non200_body_unread_witness :
    (( Client.Annotations (fun _ => Except.ok resp404) [] state0).2).bodyRead = false ∧
    (( Client.Org (fun _ => Except.ok resp404) 1 state0).2).bodyRead = false := by
  have hth := non200_body_unread resp404 (by decide) [] 1 0 0 {} {} {}
    "alice" "Viewer" "org" state0
  exact ⟨hth.1, hth.2.2.2.2.2.2.2.2.2.2.2.2.2.2.1⟩

/-- The list fetch leaves the client configuration untouched. -/
theorem annotations_client_eq (env : Env) (params : List (String × List String))
    (s : OpState) : (( Client.Annotations env params s).2).client = s.client := by
  unfold Client.Annotations
  dsimp only
  (repeat' split) <;> rfl

/-- The shared `{message}` executor shape leaves the client configuration
untouched. -/
theorem messageOp_client_eq (env : Env) (method path : String) (body : Option JVal)
    (s : OpState) : ((messageOp env method path body s).2).client = s.client := by
  unfold messageOp
  dsimp only
  (repeat' split) <;> rfl

/-- C7: the client configuration is immutable: every operation, on every
transport behaviour and input, leaves the `client` component of the state
exactly as it was, whether the call succeeds or fails. -/
theorem client_config_immutable :
    (∀ env params s, (( Client.Annotations env params s).2).client = s.client) ∧
    (∀ env id params s, (( Client.Annotation env id params s).2).client = s.client) ∧
    (∀ env a s, (( Client.NewAnnotation env a s).2).client = s.client) ∧
    (∀ env g s, (( Client.NewGraphiteAnnotation env g s).2).client = s.client) ∧
    (∀ env id a s, (( Client.UpdateAnnotation env id a s).2).client = s.client) ∧
    (∀ env id a s, (( Client.PatchAnnotation env id a s).2).client = s.client) ∧
    (∀ env id s, (( Client.DeleteAnnotation env id s).2).client = s.client) ∧
    (∀ env id s, (( Client.DeleteAnnotationByRegionID env id s).2).client = s.client) ∧
    (∀ o env u r s, (( Org.AddUser o env u r s).2).client = s.client) ∧
    (∀ o env s, (( Org.Dashboards o env s).2).client = s.client) ∧
    (∀ o env s, (( Org.Users o env s).2).client = s.client) ∧
    (∀ o env uid s, (( Org.RemoveUser o env uid s).2).client = s.client) ∧
    (∀ o env s, (( Org.DataSources o env s).2).client = s.client) ∧
    (∀ env oid s, (( Client.DataSourcesByOrgId env oid s).2).client = s.client) ∧
    (∀ env id s, (( Client.Org env id s).2).client = s.client) ∧
    (∀ env n s, (( Client.OrgByName env n s).2).client = s.client) ∧
    (∀ env s, (( Client.Orgs env s).2).client = s.client) ∧
    (∀ env n s, (( Client.NewOrg env n s).2).client = s.client) ∧
    (∀ env id s, (( Client.DeleteOrg env id s).2).client = s.client) := by
  refine ⟨annotations_client_eq, ?_, ?_, ?_, ?_, ?_, ?_, ?_, ?_, ?_, ?_, ?_, ?_, ?_,
    ?_, ?_, ?_, ?_, ?_⟩
  · intro env id params s
    unfold Client.Annotation
    dsimp only
    (repeat' split) <;> exact annotations_client_eq env params s
  · intro env a s
    unfold Client.NewAnnotation
    dsimp only
    (repeat' split) <;> rfl
  · intro env g s
    unfold Client.NewGraphiteAnnotation
    dsimp only
    (repeat' split) <;> rfl
  · intro env id a s
    exact messageOp_client_eq env "PUT" ("/api/annotations/" ++ toString id)
      (some ( encodeAnnotation a)) s
  · intro env id a s
    exact messageOp_client_eq env "PATCH" ("/api/annotations/" ++ toString id)
      (some ( encodeAnnotation a)) s
  · intro env id s
    exact messageOp_client_eq env "DELETE" ("/api/annotations/" ++ toString id) none s
  · intro env id s
    exact messageOp_client_eq env "DELETE" ("/api/annotations/region/" ++ toString id)
      none s
  · intro o env u r s
    unfold Org.AddUser
    dsimp only
    (repeat' split) <;> rfl
  · intro o env s
    rfl
  · intro o env s
    unfold Org.Users
    dsimp only
    (repeat' split) <;> rfl
  · intro o env uid s
    unfold Org.RemoveUser
    dsimp only
    (repeat' split) <;> rfl
  · intro o env s
    unfold Org.DataSources Client.DataSourcesByOrgId
    dsimp only
    (repeat' split) <;> rfl
  · intro env oid s
    unfold Client.DataSourcesByOrgId
    dsimp only
    (repeat' split) <;> rfl
  · intro env id s
    unfold Client.Org
    dsimp only
    (repeat' split) <;> rfl
  · intro env n s
    unfold Client.OrgByName
    dsimp only
    (repeat' split) <;> rfl
  · intro env s
    unfold Client.Orgs
    dsimp only
    (repeat' split) <;> rfl
  · intro env n s
    unfold Client.NewOrg
    dsimp only
    (repeat' split) <;> rfl
  · intro env id s
    unfold Client.DeleteOrg
    dsimp only
    (repeat' split) <;> rfl

end Gapi
